import Mathlib

/-!
Shallow embedding of the MessagePack-RPC message codec of `src/message.rs`
(repository rmp-rpc).

The generic MessagePack value tree and its byte-level reader/writer come
from the external `rmpv` crate; the spec (section 2, item 1) treats that
value model as a collaborator whose encode/decode of a structured value
tree is opaque and faithful.  The embedding therefore works at the `Value`
level: `Message.as_value` is the encoder of `message.rs` (and
`Message::pack` is the external byte writer applied to it), while
`Message.decodeValue` is everything `Message::decode` does after
`rmpv::decode::value::read_value` has produced a `Value` (the byte reader
is modelled as the identity round-trip on value trees).  Rust `Vec`
indexing `array[i]` panics when `i` is out of bounds; a panic is modelled
as `Option.none`, so every decode function returns
`Option (Except DecodeError _)`: `none` is a panic, `some (Except.error e)`
a returned error, and `some (Except.ok m)` success.
-/

/-- A `rmpv::Utf8String`: a string field that may hold invalid UTF-8, in
which case `as_str` yields nothing.  Strings built from a Rust `String`
(as `Message::as_value` does) are always valid. -/
inductive Utf8String where
  | valid (s : String)
  | invalid (bytes : List Nat)
deriving DecidableEq

/-- `Utf8String::as_str` of `rmpv`: `some` exactly on valid UTF-8. -/
def Utf8String.as_str : Utf8String → Option String
  | Utf8String.valid s => some s
  | Utf8String.invalid _ => none

/-- The `rmpv::Value` tree (nil, bool, integer, float, string, binary,
array, map, extension).  `rmpv` integers span the union of the i64 and u64
ranges; they are modelled as unbounded `Int` (floats are carried as their
bit patterns; the codec never inspects them). -/
inductive Value where
  | nil
  | boolean (b : Bool)
  | integer (n : Int)
  | f32 (bits : Nat)
  | f64 (bits : Nat)
  | str (s : Utf8String)
  | bin (bytes : List Nat)
  | array (elems : List Value)
  | map (entries : List (Value × Value))
  | ext (tag : Int) (data : List Nat)

/-- `rmpv::Integer::as_u64`: `some` exactly on non-negative integers. -/
def Integer.as_u64 (n : Int) : Option Nat :=
  if 0 ≤ n then some n.toNat else none

/-- The Rust cast `as u32` applied to a u64: truncation modulo `2 ^ 32`. -/
def castU32 (n : Nat) : Nat := n % 2 ^ 32

/-- `Request` of `src/message.rs`: `id: u32, method: String,
params: Vec<Value>`.  The id is a u32; `Message.wf` records the
`id < 2 ^ 32` bound that the Rust type carries. -/
structure Request where
  id : Nat
  method : String
  params : List Value

/-- `Response` of `src/message.rs`: `id: u32, result: Result<Value, Value>`
(`Except.ok` is Rust `Ok`, `Except.error` is Rust `Err`). -/
structure Response where
  id : Nat
  result : Except Value Value

/-- `Notification` of `src/message.rs`: `method: String,
params: Vec<Value>`. -/
structure Notification where
  method : String
  params : List Value

/-- `Message` of `src/message.rs`. -/
inductive Message where
  | Request (req : Request)
  | Response (resp : Response)
  | Notification (note : Notification)

/-- Modelled from the spec: the `errors` module of the repository (the
`use errors::*` import of `src/message.rs`) is not under `src/`; sections
4.1 and 7 of the spec list the decode error kinds: `Truncated` (input
ended before a complete value), `Invalid` (malformed message shape), and
an I/O failure kind. -/
inductive DecodeError where
  | Truncated
  | Invalid
  | Io
deriving DecidableEq

def REQUEST_MESSAGE : Nat := 0
def RESPONSE_MESSAGE : Nat := 1
def NOTIFICATION_MESSAGE : Nat := 2

/-- `Notification::decode` of `src/message.rs` (lines 121-145). -/
def Notification.decode (array : List Value) : Option (Except DecodeError Notification) :=
  if array.length < 3 then some (Except.error DecodeError.Invalid)
  else
    match array.get? 1 with
    | some (Value.str method) =>
      match method.as_str with
      | some s =>
        match array.get? 2 with
        | some (Value.array params) => some (Except.ok ⟨s, params⟩)
        | some _ => some (Except.error DecodeError.Invalid)
        | none => none
      | none => some (Except.error DecodeError.Invalid)
    | some _ => some (Except.error DecodeError.Invalid)
    | none => none

/-- `Request::decode` of `src/message.rs` (lines 148-183): note the
`id.as_u64() ... as u32` chain, which truncates the wire integer modulo
`2 ^ 32` instead of rejecting ids that do not fit in 32 bits. -/
def Request.decode (array : List Value) : Option (Except DecodeError Request) :=
  if array.length < 4 then some (Except.error DecodeError.Invalid)
  else
    match array.get? 1 with
    | some (Value.integer i) =>
      match Integer.as_u64 i with
      | some n =>
        let id := castU32 n
        match array.get? 2 with
        | some (Value.str method) =>
          match method.as_str with
          | some s =>
            match array.get? 3 with
            | some (Value.array params) => some (Except.ok ⟨id, s, params⟩)
            | some _ => some (Except.error DecodeError.Invalid)
            | none => none
          | none => some (Except.error DecodeError.Invalid)
        | some _ => some (Except.error DecodeError.Invalid)
        | none => none
      | none => some (Except.error DecodeError.Invalid)
    | some _ => some (Except.error DecodeError.Invalid)
    | none => none

/-- `Response::decode` of `src/message.rs` (lines 186-209): the length
guard is `array.len() < 2`, yet the `Value::Nil` branch reads `array[3]`
unconditionally — on a length-3 array with a nil error element the Rust
indexing panics, modelled as `none`. -/
def Response.decode (array : List Value) : Option (Except DecodeError Response) :=
  if array.length < 2 then some (Except.error DecodeError.Invalid)
  else
    match array.get? 1 with
    | some (Value.integer i) =>
      match Integer.as_u64 i with
      | some n =>
        let id := castU32 n
        match array.get? 2 with
        | some Value.nil =>
          match array.get? 3 with
          | some v => some (Except.ok ⟨id, Except.ok v⟩)
          | none => none
        | some err => some (Except.ok ⟨id, Except.error err⟩)
        | none => none
      | none => some (Except.error DecodeError.Invalid)
    | some _ => some (Except.error DecodeError.Invalid)
    | none => none

/-- `Message::decode` of `src/message.rs` (lines 45-76) after the
byte-level `read_value` has produced a `Value` (the external byte reader
is the identity round-trip on value trees; `Truncated` and `Io` arise
only from it, never from this validation stage). -/
def Message.decodeValue (msg : Value) : Option (Except DecodeError Message) :=
  match msg with
  | Value.array array =>
    if array.length < 3 then some (Except.error DecodeError.Invalid)
    else
      match array.get? 0 with
      | some (Value.integer t) =>
        match Integer.as_u64 t with
        | some 0 =>
          match Request.decode array with
          | some (Except.ok req) => some (Except.ok (Message.Request req))
          | some (Except.error e) => some (Except.error e)
          | none => none
        | some 1 =>
          match Response.decode array with
          | some (Except.ok resp) => some (Except.ok (Message.Response resp))
          | some (Except.error e) => some (Except.error e)
          | none => none
        | some 2 =>
          match Notification.decode array with
          | some (Except.ok note) => some (Except.ok (Message.Notification note))
          | some (Except.error e) => some (Except.error e)
          | none => none
        | _ => some (Except.error DecodeError.Invalid)
      | some _ => some (Except.error DecodeError.Invalid)
      | none => none
  | _ => some (Except.error DecodeError.Invalid)

/-- `Message::as_value` of `src/message.rs` (lines 78-111), the encoder:
`Message::pack` is `rmpv::encode::write_value` applied to this value. -/
def Message.as_value : Message → Value
  | Message.Request ⟨id, method, params⟩ =>
    Value.array [Value.integer REQUEST_MESSAGE, Value.integer id,
      Value.str (Utf8String.valid method), Value.array params]
  | Message.Response ⟨id, result⟩ =>
    let er : Value × Value :=
      match result with
      | Except.ok res => (Value.nil, res)
      | Except.error err => (err, Value.nil)
    Value.array [Value.integer RESPONSE_MESSAGE, Value.integer id, er.1, er.2]
  | Message.Notification ⟨method, params⟩ =>
    Value.array [Value.integer NOTIFICATION_MESSAGE,
      Value.str (Utf8String.valid method), Value.array params]

/-- Constructibility bound carried by the Rust types: id fields are u32. -/
def Message.wf : Message → Prop
  | Message.Request req => req.id < 2 ^ 32
  | Message.Response resp => resp.id < 2 ^ 32
  | Message.Notification _ => True

instance : DecidablePred Message.wf := by
  intro m
  cases m <;> simp only [Message.wf] <;> infer_instance

/-- The one message shape whose encoding does not decode back to itself:
a `Response` whose result is the failure variant carrying `Value.nil`. -/
def Message.errNilResponse : Message → Prop
  | Message.Response resp => resp.result = Except.error Value.nil
  | _ => False

theorem Integer.as_u64_natCast (n : Nat) : Integer.as_u64 (n : Int) = some n := by
  simp [Integer.as_u64]

/-- Inversion: a successful decode to a `Response` message went through the
tag-1 branch and `Response.decode`. -/
theorem response_decode_of_decodeValue (arr : List Value) (resp : Response)
    (h : Message.decodeValue (Value.array arr) = some (Except.ok (Message.Response resp))) :
    Response.decode arr = some (Except.ok resp) ∧ 3 ≤ arr.length ∧
      ∃ t, arr.get? 0 = some (Value.integer t) ∧ Integer.as_u64 t = some 1 := by
  simp only [Message.decodeValue] at h
  split at h
  · exact absurd h (by simp)
  rename_i hlen
  split at h
  case _ t ht =>
    split at h
    case _ h1 => split at h <;> simp_all
    case _ h1 =>
      split at h
      case _ r0 hr0 =>
        simp only [Option.some.injEq, Except.ok.injEq, Message.Response.injEq] at h
        subst h
        exact ⟨hr0, by omega, t, ht, h1⟩
      · exact absurd h (by simp)
      · exact absurd h (by simp)
    case _ h1 => split at h <;> simp_all
    case _ => exact absurd h (by simp)
  case _ => exact absurd h (by simp)
  case _ => exact absurd h (by simp)

/-- Inversion of `Response.decode` success: the wire facts it implies. -/
theorem response_decode_ok_inv (arr : List Value) (resp : Response)
    (h : Response.decode arr = some (Except.ok resp)) :
    2 ≤ arr.length ∧ ∃ i n, arr.get? 1 = some (Value.integer i) ∧ Integer.as_u64 i = some n ∧
      resp.id = castU32 n ∧
      ((arr.get? 2 = some Value.nil ∧ ∃ v, arr.get? 3 = some v ∧ resp.result = Except.ok v) ∨
        (∃ e, arr.get? 2 = some e ∧ e ≠ Value.nil ∧ resp.result = Except.error e)) := by
  simp only [Response.decode] at h
  split at h
  · exact absurd h (by simp)
  rename_i hlen
  split at h
  case _ i hi =>
    split at h
    case _ n hn =>
      split at h
      case _ hnil =>
        split at h
        case _ v hv =>
          simp only [Option.some.injEq, Except.ok.injEq] at h
          subst h
          exact ⟨by omega, i, n, hi, hn, rfl, Or.inl ⟨hnil, v, hv, rfl⟩⟩
        · exact absurd h (by simp)
      case _ err hne herr =>
        simp only [Option.some.injEq, Except.ok.injEq] at h
        subst h
        refine ⟨by omega, i, n, hi, hn, rfl, Or.inr ⟨err, herr, ?_, rfl⟩⟩
        intro hcontra
        subst hcontra
        exact hne rfl
      · exact absurd h (by simp)
    · exact absurd h (by simp)
  · exact absurd h (by simp)
  · exact absurd h (by simp)

/-- C1 (counterexample): the round-trip claim fails as stated.  The
constructible message `Response \x7b id: 0, result: Err(Nil) \x7d` encodes to
the wire array `[1, 0, nil, nil]`, which decodes back as the success
response `Ok(Nil)`, not as the original failure response. -/
theorem roundtrip_err_nil_counterexample :
    Message.decodeValue (Message.as_value (Message.Response ⟨0, Except.error Value.nil⟩)) ≠
      some (Except.ok (Message.Response ⟨0, Except.error Value.nil⟩)) := by
  have h1 : Message.decodeValue (Message.as_value (Message.Response ⟨0, Except.error Value.nil⟩)) =
      some (Except.ok (Message.Response ⟨0, Except.ok Value.nil⟩)) := by rfl
  rw [h1]
  simp

/-- C1 (amended): for every constructible message `m` — ids bounded by the
u32 type, `Message.wf` — that is not a `Response` whose result is the
failure variant carrying `Value.nil`, decoding the encoding of `m` yields
exactly `m`.  (The excluded shape encodes its error slot as nil, which the
decoder reads back as a success; see the counterexample.) -/
theorem roundtrip_decode_encode (m : Message) (hwf : m.wf) (hn : ¬ m.errNilResponse) :
    Message.decodeValue m.as_value = some (Except.ok m) := by
  cases m with
  | Request req =>
    obtain ⟨id, method, params⟩ := req
    simp only [Message.wf] at hwf
    rw [show (2 : Nat) ^ 32 = 4294967296 from rfl] at hwf
    simp [Message.decodeValue, Message.as_value, Request.decode, Integer.as_u64_natCast,
      castU32, Utf8String.as_str, Nat.mod_eq_of_lt hwf, REQUEST_MESSAGE, Integer.as_u64]
  | Response resp =>
    obtain ⟨id, result⟩ := resp
    simp only [Message.wf] at hwf
    rw [show (2 : Nat) ^ 32 = 4294967296 from rfl] at hwf
    cases result with
    | ok res =>
      simp [Message.decodeValue, Message.as_value, Response.decode, Integer.as_u64_natCast,
        castU32, Nat.mod_eq_of_lt hwf, RESPONSE_MESSAGE, Integer.as_u64]
    | error err =>
      have hne : err ≠ Value.nil := by
        intro h
        exact hn (by simp [Message.errNilResponse, h])
      cases err <;>
        simp_all [Message.decodeValue, Message.as_value, Response.decode, Integer.as_u64_natCast,
          castU32, Nat.mod_eq_of_lt hwf, RESPONSE_MESSAGE, Integer.as_u64]
  | Notification note =>
    obtain ⟨method, params⟩ := note
    simp [Message.decodeValue, Message.as_value, Notification.decode,
      Utf8String.as_str, NOTIFICATION_MESSAGE, Integer.as_u64]

/-- C1 (witness): the amended round-trip theorem applied to the concrete
request of the repository test, `Request \x7b id: 1234, method: "dummy",
params: [] \x7d`. -/
theorem roundtrip_decode_encode_witness :
    Message.decodeValue (Message.as_value (Message.Request ⟨1234, "dummy", []⟩)) =
      some (Except.ok (Message.Request ⟨1234, "dummy", []⟩)) :=
  roundtrip_decode_encode (Message.Request ⟨1234, "dummy", []⟩) (by decide)
    (by simp [Message.errNilResponse])

/-- C2: for every wire array tagged as a Response whose decode succeeds
with response `resp`: if element 2 is nil, `resp` is a success whose
result equals element 3; if element 2 is any non-nil value `e`, `resp` is
a failure whose payload is `e` verbatim, and element 3 is ignored —
overwriting it with any value decodes to the same response. -/
theorem response_decode_rule (arr : List Value) (resp : Response)
    (h : Message.decodeValue (Value.array arr) = some (Except.ok (Message.Response resp))) :
    (arr.get? 2 = some Value.nil → ∃ v3, arr.get? 3 = some v3 ∧ resp.result = Except.ok v3) ∧
    (∀ e, arr.get? 2 = some e → e ≠ Value.nil →
      resp.result = Except.error e ∧
      ∀ w, Message.decodeValue (Value.array (arr.set 3 w)) =
        some (Except.ok (Message.Response resp))) := by
  obtain ⟨hdec, hlen3, t, ht0, ht1⟩ := response_decode_of_decodeValue arr resp h
  obtain ⟨hlen2, i, n, hi, hn, hid, hcase⟩ := response_decode_ok_inv arr resp hdec
  constructor
  · intro hnil
    rcases hcase with ⟨_, v, hv, hres⟩ | ⟨e, he, hne, _⟩
    · exact ⟨v, hv, hres⟩
    · rw [hnil] at he
      simp only [Option.some.injEq] at he
      exact absurd he.symm hne
  · intro e he hne
    rcases hcase with ⟨hnil, _⟩ | ⟨e2, he2, hne2, hres⟩
    · rw [he] at hnil
      simp only [Option.some.injEq] at hnil
      exact absurd hnil hne
    · have he2e : e2 = e := by
        rw [he] at he2
        simpa using he2.symm
      subst he2e
      refine ⟨hres, fun w => ?_⟩
      have hL : (arr.set 3 w).length = arr.length := List.length_set arr 3 w
      have h0 : (arr.set 3 w).get? 0 = arr.get? 0 := List.get?_set_ne w arr (by decide)
      have h1 : (arr.set 3 w).get? 1 = arr.get? 1 := List.get?_set_ne w arr (by decide)
      have h2 : (arr.set 3 w).get? 2 = arr.get? 2 := List.get?_set_ne w arr (by decide)
      have hdec2 : Response.decode (arr.set 3 w) = some (Except.ok resp) := by
        have hresp : resp = ⟨castU32 n, Except.error e2⟩ := by
          cases resp
          simp_all
        rw [hresp]
        simp only [Response.decode, hL, h1, h2, hi, hn, he2]
        rw [if_neg (by omega)]
      simp only [Message.decodeValue, hL, h0, ht0, ht1]
      rw [if_neg (by omega), hdec2]

/-- C2 (witness): the decode rule applied to the concrete Response wire
array `[1, 5, 7, 9]` — error element `7` is non-nil, so the decode is the
failure response with payload `7` and element 3 (`9`) is ignored. -/
theorem response_decode_rule_witness :
    (([Value.integer 1, Value.integer 5, Value.integer 7,
          Value.integer 9] : List Value).get? 2 = some Value.nil →
      ∃ v3, ([Value.integer 1, Value.integer 5, Value.integer 7,
          Value.integer 9] : List Value).get? 3 = some v3 ∧
        (⟨5, Except.error (Value.integer 7)⟩ : Response).result = Except.ok v3) ∧
    (∀ e, ([Value.integer 1, Value.integer 5, Value.integer 7,
          Value.integer 9] : List Value).get? 2 = some e → e ≠ Value.nil →
      (⟨5, Except.error (Value.integer 7)⟩ : Response).result = Except.error e ∧
      ∀ w, Message.decodeValue (Value.array (([Value.integer 1, Value.integer 5,
          Value.integer 7, Value.integer 9] : List Value).set 3 w)) =
        some (Except.ok (Message.Response ⟨5, Except.error (Value.integer 7)⟩))) :=
  response_decode_rule
    [Value.integer 1, Value.integer 5, Value.integer 7, Value.integer 9]
    ⟨5, Except.error (Value.integer 7)⟩ (by rfl)

/-- C3 (the code at the failing inputs): the claim says any fully-read
outer array shorter than the variant minimum (3 for Notification, 4 for
Request and Response) decodes to Invalid, never succeeding and never
panicking.  The code honours this for Notification and Request, but its
Response length guard is `len < 2`: the length-3 Response-tagged array
`[1, 0, nil]` drives `Response::decode` to index `array[3]` out of bounds
— a panic, modelled `none` — and `[1, 0, 7]` even decodes successfully. -/
theorem short_response_array_decode :
    Message.decodeValue (Value.array [Value.integer 1, Value.integer 0, Value.nil]) = none ∧
    Message.decodeValue (Value.array [Value.integer 1, Value.integer 0, Value.integer 7]) =
      some (Except.ok (Message.Response ⟨0, Except.error (Value.integer 7)⟩)) ∧
    Message.decodeValue (Value.array [Value.integer 2, Value.str (Utf8String.valid "m")]) =
      some (Except.error DecodeError.Invalid) ∧
    Message.decodeValue (Value.array [Value.integer 0, Value.integer 1,
        Value.str (Utf8String.valid "m")]) =
      some (Except.error DecodeError.Invalid) :=
  ⟨rfl, rfl, rfl, rfl⟩

/-- C4 (the code at the failing input): the claim says a Request-tagged
array whose id exceeds the 32-bit range must not decode successfully, and
a successful decode preserves the wire integer exactly.  The code rejects
negative ids as claimed, but `as u32` silently truncates: the wire id
`2 ^ 32 + 5` decodes successfully to id `5`. -/
theorem request_id_decode_truncation :
    Message.decodeValue (Value.array [Value.integer 0, Value.integer (2 ^ 32 + 5),
        Value.str (Utf8String.valid "m"), Value.array []]) =
      some (Except.ok (Message.Request ⟨5, "m", []⟩)) ∧
    Message.decodeValue (Value.array [Value.integer 0, Value.integer (-1),
        Value.str (Utf8String.valid "m"), Value.array []]) =
      some (Except.error DecodeError.Invalid) :=
  ⟨rfl, rfl⟩
